import Mathlib

/-!
Verification of the note-splitting pipeline of `src/main.ts`
(`splitNoteByDelimiter` and its helpers).  Document text, delimiters,
file names and notification messages are modelled as `List Char`;
the JavaScript string operations used by the source
(`String.prototype.split`, `trim`, `replace(/\\n/g, "\n")`,
template concatenation) are given executable embeddings below.
-/

set_option maxHeartbeats 1000000

/-- The character class removed by the JavaScript `String.prototype.trim`
(WhiteSpace and LineTerminator code points). -/
def isJsWhitespace (c : Char) : Bool :=
  [9, 10, 11, 12, 13, 32, 160, 0x1680, 0x2000, 0x2001, 0x2002, 0x2003, 0x2004,
    0x2005, 0x2006, 0x2007, 0x2008, 0x2009, 0x200A, 0x2028, 0x2029, 0x202F,
    0x205F, 0x3000, 0xFEFF].contains c.toNat

/-- Embedding of the JavaScript `String.prototype.trim`: remove leading and
trailing JS whitespace. -/
def jsTrim (s : List Char) : List Char :=
  List.rdropWhile isJsWhitespace (s.dropWhile isJsWhitespace)

/-- Fuel-driven worker for `String.prototype.split` with a non-empty literal
separator: cut at each leftmost, non-overlapping occurrence of `sep`.
The fuel is only a structural-recursion device; `splitOnL` supplies
enough fuel for it never to run out. -/
def splitOnFuel (sep : List Char) : Nat → List Char → List (List Char)
  | _, [] => [[]]
  | 0, s => [s]
  | fuel + 1, c :: rest =>
    if sep ≠ [] ∧ sep.isPrefixOf (c :: rest) then
      [] :: splitOnFuel sep fuel (List.drop (sep.length - 1) rest)
    else
      match splitOnFuel sep fuel rest with
      | [] => [[c]]
      | p :: ps => (c :: p) :: ps

/-- Embedding of `s.split(sep)` for a non-empty literal separator `sep`. -/
def splitOnL (sep s : List Char) : List (List Char) :=
  splitOnFuel sep s.length s

/-- Embedding of the JavaScript `s.split(sep)` for a literal (string)
separator, including the empty-separator case, where JS splits into
single characters. -/
def jsSplit (sep s : List Char) : List (List Char) :=
  if sep = [] then s.map (fun c => [c]) else splitOnL sep s

/-- Embedding of `Array.prototype.join(sep)`. -/
def joinSep (sep : List Char) : List (List Char) → List Char
  | [] => []
  | [x] => x
  | x :: y :: xs => x ++ sep ++ joinSep sep (y :: xs)

/-- Embedding of lines 76-79 of `src/main.ts`: split the document on the
escaped delimiter, trim every segment, drop segments that became empty. -/
def computeSplitContent (delim text : List Char) : List (List Char) :=
  ((jsSplit delim text).map jsTrim).filter (fun c => c != [])

/-- Embedding of line 61 of `src/main.ts`:
`delimiter.replace(/\\n/g, "\n")` — a global, literal replacement of the
two-character sequence backslash-`n` by a newline, expressed (as JS
`replace` behaves for a literal pattern) as split-then-join. -/
def escapeDelimiter (delimiter : List Char) : List Char :=
  joinSep ['\n'] (jsSplit ['\\', 'n'] delimiter)

/-- How the specification describes delimiter normalization, written as a
single left-to-right, non-recursive pass: every occurrence of the
two-character sequence backslash-`n` becomes one newline, all other
characters are kept unchanged, and replaced text is never re-examined. -/
def replaceEscSpec : List Char → List Char
  | [] => []
  | [c] => [c]
  | c1 :: c2 :: rest =>
    if c1 = '\\' ∧ c2 = 'n' then '\n' :: replaceEscSpec rest
    else c1 :: replaceEscSpec (c2 :: rest)

/-- Decimal digit character, as produced by JavaScript number-to-string
conversion for a digit value. -/
def natDigitChar (n : Nat) : Char := Char.ofNat (48 + n)

/-- Fuel-driven decimal rendering worker (the fuel is a structural-recursion
device; `natDigits` supplies enough). -/
def natDigitsFuel : Nat → Nat → List Char
  | 0, n => [natDigitChar n]
  | fuel + 1, n =>
    if n < 10 then [natDigitChar n]
    else natDigitsFuel fuel (n / 10) ++ [natDigitChar (n % 10)]

/-- Embedding of the JavaScript decimal rendering of a (natural) number, as
used by the template literal in line 116 of `src/main.ts`. -/
def natDigits (n : Nat) : List Char := natDigitsFuel n n

/-- Decoder for decimal digit lists, used to prove `natDigits` injective. -/
def digitsVal (l : List Char) : Nat :=
  l.foldl (fun a c => a * 10 + (c.toNat - 48)) 0

/-- The plugin settings record (`NoteSplitterSettings` in `src/main.ts`). -/
structure Settings where
  saveFolderPath : List Char
  useContentAsTitle : Bool
  delimiter : List Char
  appendToSplitContent : List Char
  deleteOriginalNote : Bool

/-- Outcome of one `vault.create` call: success, or a thrown error carrying
the message inspected by the catch handler. -/
inductive CreateOutcome where
  | success : CreateOutcome
  | failure : List Char → CreateOutcome
deriving DecidableEq

/-- The host environment of one run of `splitNoteByDelimiter`: the file
content returned by `cachedRead`, the parent-folder path of the file,
the value returned by the `Date.now()` read made while processing the
fragment at each position (line 116 reads the clock anew on every
iteration, so the reads are modelled as a function of the fragment
position and need not be equal or monotone), the outcome of the k-th
`vault.create` call, the token returned by the k-th
`crypto.randomUUID()` (indexed by the fragment position), and the
`normalizePath` function of the host. -/
structure Env where
  fileContent : List Char
  parentPath : Option (List Char)
  now : Nat → Nat
  createResult : Nat → CreateOutcome
  uuid : Nat → List Char
  normalizePath : List Char → List Char

/-- Modelled from the spec: `removeFrontmatterBlock` lives in the repository
file `src/utils.ts`, which is not among the provided sources.  Per the
spec it detects a block delimited by a `---` marker line at the very
start of the document and a matching marker line later, removes the
marker lines and everything between them, and otherwise returns the
input unchanged. -/
def removeFrontmatterBlock (text : List Char) : List Char :=
  match splitOnL ['\n'] text with
  | [] => text
  | firstLine :: rest =>
    if firstLine = ['-', '-', '-'] then
      match rest.findIdx? (fun l => l == ['-', '-', '-']) with
      | some j => joinSep ['\n'] (rest.drop (j + 1))
      | none => text
    else text

/-- Modelled from the spec: `escapeInvalidFileNameChars` lives in the
repository file `src/utils.ts`, which is not among the provided sources.
Per the spec it strips the characters backslash, slash, colon, star,
question mark, double quote, angle brackets, pipe, and control
characters, and trims the resulting whitespace. -/
def escapeInvalidFileNameChars (name : List Char) : List Char :=
  jsTrim (name.filter (fun c =>
    !(c = '\\' || c = '/' || c = ':' || c = '*' || c = '?' || c = '"' ||
      c = '<' || c = '>' || c = '|' || c.toNat < 32)))

/-- Modelled from the spec: `trimForFileName` lives in the repository file
`src/utils.ts`, which is not among the provided sources.  Per the spec it
truncates the name to the maximum component length of the storage system
(255), reserving room for the extension. -/
def trimForFileName (name ext : List Char) : List Char :=
  name.take (255 - ext.length)

/-- Embedding of lines 111-117 of `src/main.ts`: the file name derived for
the fragment at position `i` — the sanitized and truncated first line in
title mode, the synthesized `split-note-` name otherwise; `now` is the
value of the `Date.now()` call made during this iteration. -/
def deriveFileName (useContentAsTitle : Bool) (now i : Nat)
    (originalContent : List Char) : List Char :=
  let fileName := (jsSplit ['\n'] originalContent).headI
  if useContentAsTitle then
    trimForFileName (escapeInvalidFileNameChars fileName) ".md".data
  else
    "split-note-".data ++ natDigits (now + i)

/-- State threaded through the write loop of `splitNoteByDelimiter`:
the number of `vault.create` calls made so far (indexing
`Env.createResult`), the `filesCreated` counter, the log of attempted
creations (path and content of every call), the successfully created
items, and the error notices shown so far. -/
structure LoopState where
  callIdx : Nat
  filesCreated : Nat
  attempts : List (List Char × List Char)
  created : List (List Char × List Char)
  notices : List (List Char)

/-- One `vault.create(path, content)` call: logs the attempt, consumes the
next `createResult`, and on success records the item and increments
`filesCreated`. -/
def attemptCreate (env : Env) (st : LoopState) (path content : List Char) :
    LoopState × CreateOutcome :=
  let res := env.createResult st.callIdx
  let st1 : LoopState :=
    { st with callIdx := st.callIdx + 1, attempts := st.attempts ++ [(path, content)] }
  match res with
  | CreateOutcome.success =>
    ({ st1 with filesCreated := st1.filesCreated + 1,
                created := st1.created ++ [(path, content)] }, res)
  | CreateOutcome.failure _ => (st1, res)

def errNoticeStart : List Char := "Error creating file: ".data

def alreadyExistsMark : List Char := "already exists".data

/-- Embedding of the JavaScript `String.prototype.includes`: does `s`
contain `pat` as a contiguous substring? -/
def hasSubstr (pat : List Char) : List Char → Bool
  | [] => pat.isEmpty
  | c :: rest => pat.isPrefixOf (c :: rest) || hasSubstr pat rest

/-- Embedding of the body of the `for` loop, lines 103-138 of
`src/main.ts`: build the fragment body, derive its name and path, attempt
the creation, and on an already-exists failure retry exactly once under a
`Split conflict` name; other failures (and a failed retry) produce an
error notice and the loop moves on. -/
def processFragment (env : Env) (settings : Settings) (folderPath : List Char)
    (st : LoopState) (i : Nat) (originalContent : List Char) : LoopState :=
  let updatedContent :=
    if settings.appendToSplitContent.length > 0 then
      originalContent ++ settings.appendToSplitContent
    else originalContent
  let fileName := deriveFileName settings.useContentAsTitle (env.now i) i originalContent
  let filePath := env.normalizePath (folderPath ++ '/' :: (fileName ++ ".md".data))
  match attemptCreate env st filePath updatedContent with
  | (st1, CreateOutcome.success) => st1
  | (st1, CreateOutcome.failure msg) =>
    if hasSubstr alreadyExistsMark msg then
      let newFilePath :=
        folderPath ++ "/Split conflict ".data ++ env.uuid i ++ ".md".data
      match attemptCreate env st1 newFilePath updatedContent with
      | (st2, CreateOutcome.success) => st2
      | (st2, CreateOutcome.failure msg2) =>
        { st2 with notices := st2.notices ++ [errNoticeStart ++ msg2] }
    else
      { st1 with notices := st1.notices ++ [errNoticeStart ++ msg] }

/-- The whole write loop over the enumerated fragments. -/
def runLoop (env : Env) (settings : Settings) (folderPath : List Char)
    (frags : List (List Char)) : LoopState :=
  frags.enum.foldl (fun st p => processFragment env settings folderPath st p.1 p.2)
    ⟨0, 0, [], [], []⟩

/-- Observable result of one run of `splitNoteByDelimiter`: the notices
shown (in order), the logged creation attempts, the successfully created
items, whether `vault.delete` was invoked on the source file, whether
`cachedRead` was reached, whether `createFolder` was reached, and the
fragment/created counters. -/
structure RunResult where
  notices : List (List Char)
  attempts : List (List Char × List Char)
  created : List (List Char × List Char)
  sourceDeleted : Bool
  contentRead : Bool
  folderCreateAttempted : Bool
  fragmentsTotal : Nat
  filesCreated : Nat

def noDelimiterMsg : List Char :=
  "No delimiter set. Please set a delimiter in the settings.".data

def noContentMsg : List Char := "No content to split.".data

def onlyOneMsg : List Char :=
  "Only one section of content found. Nothing to split.".data

/-- The final summary notice of line 146 of `src/main.ts`. -/
def summaryMsg (n : Nat) : List Char :=
  "Split into ".data ++ natDigits n ++ " note".data ++
    (if 1 < n then "s".data else []) ++ ".".data

/-- Embedding of `splitNoteByDelimiter` (lines 57-148 of `src/main.ts`). -/
def splitNoteByDelimiter (settings : Settings) (env : Env) : RunResult :=
  let escapedDelimiter := escapeDelimiter settings.delimiter
  if escapedDelimiter = [] then
    ⟨[noDelimiterMsg], [], [], false, false, false, 0, 0⟩
  else
    let dataWithoutFrontmatter := removeFrontmatterBlock env.fileContent
    if dataWithoutFrontmatter = [] then
      ⟨[noContentMsg], [], [], false, true, false, 0, 0⟩
    else
      let splitContent := computeSplitContent escapedDelimiter dataWithoutFrontmatter
      if splitContent.length = 0 then
        ⟨[noContentMsg], [], [], false, true, false, 0, 0⟩
      else if splitContent.length = 1 then
        ⟨[onlyOneMsg], [], [], false, true, false, 1, 0⟩
      else
        let folderPath :=
          if settings.saveFolderPath ≠ [] then settings.saveFolderPath
          else env.parentPath.getD []
        let st := runLoop env settings folderPath splitContent
        ⟨st.notices ++ [summaryMsg st.filesCreated], st.attempts, st.created,
          (st.filesCreated == splitContent.length) && settings.deleteOriginalNote,
          true, true, splitContent.length, st.filesCreated⟩

/-! ### Lemmas about the splitter and the trimmer -/

theorem px_to_ifx {l₁ l₂ : List Char} (h : l₁ <+: l₂) : l₁ <:+: l₂ := by
  rcases h with ⟨t, ht⟩
  exact ⟨[], t, by simp [ht]⟩

theorem sx_to_ifx {l₁ l₂ : List Char} (h : l₁ <:+ l₂) : l₁ <:+: l₂ := by
  rcases h with ⟨t, ht⟩
  exact ⟨t, [], by simp [ht]⟩

theorem px_cons {c : Char} {l₁ l₂ : List Char} (h : l₁ <+: l₂) :
    c :: l₁ <+: c :: l₂ := by
  rcases h with ⟨t, ht⟩
  exact ⟨t, by simp [ht]⟩

theorem splitOnFuel_ne_nil (sep : List Char) :
    ∀ (fuel : Nat) (s : List Char), splitOnFuel sep fuel s ≠ [] := by
  intro fuel
  induction fuel with
  | zero => intro s; cases s <;> simp [splitOnFuel]
  | succ fuel ih =>
    intro s
    cases s with
    | nil => simp [splitOnFuel]
    | cons c rest =>
      simp only [splitOnFuel]
      split
      · simp
      · cases h : splitOnFuel sep fuel rest <;> simp [h]

theorem splitOnFuel_headI_px (sep : List Char) :
    ∀ (fuel : Nat) (s : List Char), (splitOnFuel sep fuel s).headI <+: s := by
  intro fuel
  induction fuel with
  | zero =>
    intro s
    cases s with
    | nil => simp [splitOnFuel]
    | cons c rest => simp [splitOnFuel]
  | succ fuel ih =>
    intro s
    cases s with
    | nil => simp [splitOnFuel]
    | cons c rest =>
      simp only [splitOnFuel]
      split
      · simp
      · cases h : splitOnFuel sep fuel rest with
        | nil => exact absurd h (splitOnFuel_ne_nil sep fuel rest)
        | cons p ps =>
          simp only [h, List.headI]
          have hp : p <+: rest := by
            have h2 := ih rest
            rw [h] at h2
            simpa using h2
          exact px_cons hp

theorem splitOnFuel_piece_free (sep : List Char) (hsep : sep ≠ []) :
    ∀ (fuel : Nat) (s : List Char), s.length ≤ fuel →
      ∀ p ∈ splitOnFuel sep fuel s, ¬ sep <:+: p := by
  intro fuel
  induction fuel with
  | zero =>
    intro s hlen p hp
    have hs : s = [] := List.eq_nil_of_length_eq_zero (Nat.le_zero.mp hlen)
    subst hs
    simp [splitOnFuel] at hp
    subst hp
    simp [hsep]
  | succ fuel ih =>
    intro s hlen
    cases s with
    | nil =>
      intro p hp
      simp [splitOnFuel] at hp
      subst hp
      simp [hsep]
    | cons c rest =>
      have hlen' : rest.length ≤ fuel := by
        simp only [List.length_cons] at hlen
        omega
      simp only [splitOnFuel]
      split
      · intro p hp
        rcases List.mem_cons.mp hp with hp | hp
        · subst hp; simp [hsep]
        · exact ih _ (by simp [List.length_drop]; omega) p hp
      · rename_i hcond
        have hnpf : ¬ sep.isPrefixOf (c :: rest) := fun hx => hcond ⟨hsep, hx⟩
        cases h : splitOnFuel sep fuel rest with
        | nil => exact absurd h (splitOnFuel_ne_nil sep fuel rest)
        | cons q qs =>
          simp only [h]
          intro p hp
          rcases List.mem_cons.mp hp with hp | hp
          · subst hp
            rintro ⟨u, v, huv⟩
            cases u with
            | nil =>
              simp only [List.nil_append] at huv
              have hsp : sep <+: c :: q := ⟨v, huv⟩
              have hq : q <+: rest := by
                have h2 := splitOnFuel_headI_px sep fuel rest
                rw [h] at h2
                simpa using h2
              have hfull : sep <+: c :: rest := hsp.trans (px_cons hq)
              have : sep.isPrefixOf (c :: rest) = true := by
                simpa using hfull
              exact hnpf this
            | cons x u2 =>
              have hx : x :: (u2 ++ sep ++ v) = c :: q := by
                simpa [List.append_assoc] using huv
              have hq2 : sep <:+: q := by
                injection hx with hx1 hx2
                exact ⟨u2, v, by simpa [List.append_assoc] using hx2⟩
              exact ih rest hlen' q (by rw [h]; exact List.mem_cons_self _ _) hq2
          · exact ih rest hlen' p (by rw [h]; exact List.mem_cons_of_mem _ hp)

theorem jsTrim_px_dropWhile (s : List Char) :
    jsTrim s <+: s.dropWhile isJsWhitespace := by
  unfold jsTrim
  exact List.rdropWhile_prefix isJsWhitespace (s.dropWhile isJsWhitespace)

theorem jsTrim_ifx_self (s : List Char) : jsTrim s <:+: s := by
  have h1 := jsTrim_px_dropWhile s
  have h2 : s.dropWhile isJsWhitespace <:+ s := List.dropWhile_suffix _
  exact (px_to_ifx h1).trans (sx_to_ifx h2)

theorem jsTrim_has_non_ws (s : List Char) (hne : jsTrim s ≠ []) :
    ∃ c ∈ jsTrim s, isJsWhitespace c = false := by
  have h1 := jsTrim_px_dropWhile s
  cases ht : jsTrim s with
  | nil => exact absurd ht hne
  | cons a as =>
    rw [ht] at h1
    rcases h1 with ⟨t, htt⟩
    have hh : (s.dropWhile isJsWhitespace).head? = some a := by
      rw [← htt]; simp
    have h2 := List.head?_dropWhile_not isJsWhitespace s
    rw [hh] at h2
    exact ⟨a, by simp, h2⟩

theorem mem_computeSplitContent {delim T f : List Char}
    (hf : f ∈ computeSplitContent delim T) :
    f ≠ [] ∧ ∃ p ∈ jsSplit delim T, f = jsTrim p := by
  unfold computeSplitContent at hf
  rcases List.mem_filter.mp hf with ⟨hmem, hne⟩
  rcases List.mem_map.mp hmem with ⟨p, hp, hfp⟩
  refine ⟨by simpa using hne, p, hp, hfp.symm⟩

/-! ### Lemmas about decimal rendering -/

theorem toNat_natDigitChar {n : Nat} (h : n < 10) : (natDigitChar n).toNat = 48 + n := by
  interval_cases n <;> rfl

theorem digitsVal_concat (xs : List Char) (c : Char) :
    digitsVal (xs ++ [c]) = digitsVal xs * 10 + (c.toNat - 48) := by
  simp [digitsVal, List.foldl_append]

theorem digitsVal_natDigitsFuel :
    ∀ (fuel n : Nat), n ≤ fuel → digitsVal (natDigitsFuel fuel n) = n := by
  intro fuel
  induction fuel with
  | zero =>
    intro n h
    interval_cases n
    decide
  | succ fuel ih =>
    intro n h
    by_cases h10 : n < 10
    · simp only [natDigitsFuel, if_pos h10]
      have := toNat_natDigitChar h10
      simp [digitsVal]
      omega
    · simp only [natDigitsFuel, if_neg h10]
      rw [digitsVal_concat]
      have hlt : n / 10 < n := Nat.div_lt_self (by omega) (by omega)
      rw [ih (n / 10) (by omega), toNat_natDigitChar (Nat.mod_lt _ (by omega))]
      omega

theorem natDigits_inj {m n : Nat} (h : natDigits m = natDigits n) : m = n := by
  have h1 := digitsVal_natDigitsFuel m m le_rfl
  have h2 := digitsVal_natDigitsFuel n n le_rfl
  unfold natDigits at h
  rw [h, h2] at h1
  exact h1.symm

/-! ### The delimiter normalizer equals the single-pass description -/

theorem joinSep_cons_char (sep : List Char) (c : Char) (p : List Char)
    (ps : List (List Char)) :
    joinSep sep ((c :: p) :: ps) = c :: joinSep sep (p :: ps) := by
  cases ps with
  | nil => rfl
  | cons q qs => simp [joinSep]

theorem escapeDelimiter_fuel :
    ∀ (fuel : Nat) (d : List Char), d.length ≤ fuel →
      joinSep ['\n'] (splitOnFuel ['\\', 'n'] fuel d) = replaceEscSpec d := by
  intro fuel
  induction fuel with
  | zero =>
    intro d h
    have hd : d = [] := List.eq_nil_of_length_eq_zero (Nat.le_zero.mp h)
    subst hd
    rfl
  | succ fuel ih =>
    intro d hlen
    cases d with
    | nil => rfl
    | cons c rest =>
      cases rest with
      | nil =>
        simp only [splitOnFuel]
        rw [if_neg (by simp [List.isPrefixOf])]
        cases fuel with
        | zero => rfl
        | succ fuel2 => rfl
      | cons c2 rest2 =>
        have hlen2 : rest2.length ≤ fuel := by
          simp only [List.length_cons] at hlen
          omega
        by_cases hc : c = '\\' ∧ c2 = 'n'
        · obtain ⟨hc1, hc2⟩ := hc
          subst hc1
          subst hc2
          simp only [splitOnFuel]
          rw [if_pos ⟨by simp, by simp [List.isPrefixOf]⟩]
          have ihr := ih rest2 hlen2
          cases hsp : splitOnFuel ['\\', 'n'] fuel rest2 with
          | nil => exact absurd hsp (splitOnFuel_ne_nil _ _ _)
          | cons q qs =>
            rw [hsp] at ihr
            have hdrop :
                List.drop ((['\\', 'n'] : List Char).length - 1) ('n' :: rest2) = rest2 := rfl
            rw [hdrop, hsp]
            simp only [joinSep, List.nil_append, List.singleton_append]
            rw [show replaceEscSpec ('\\' :: 'n' :: rest2) = '\n' :: replaceEscSpec rest2 by
              simp [replaceEscSpec]]
            rw [← ihr]
        · simp only [splitOnFuel]
          rw [if_neg (by
            rintro ⟨-, hpf⟩
            apply hc
            have := hpf
            simp [List.isPrefixOf] at this
            exact ⟨this.1.symm, this.2.symm⟩)]
          have ihr := ih (c2 :: rest2) (by simp only [List.length_cons] at hlen ⊢; omega)
          cases hsp : splitOnFuel ['\\', 'n'] fuel (c2 :: rest2) with
          | nil => exact absurd hsp (splitOnFuel_ne_nil _ _ _)
          | cons q qs =>
            rw [hsp] at ihr
            rw [joinSep_cons_char, ihr]
            rw [show replaceEscSpec (c :: c2 :: rest2) = c :: replaceEscSpec (c2 :: rest2) by
              simp only [replaceEscSpec]
              rw [if_neg hc]]

/-! ### Case analysis of one iteration of the write loop -/

theorem processFragment_success (env : Env) (settings : Settings)
    (folderPath : List Char) (st : LoopState) (i : Nat) (content : List Char)
    (h1 : env.createResult st.callIdx = CreateOutcome.success) :
    processFragment env settings folderPath st i content =
      { st with
        callIdx := st.callIdx + 1,
        filesCreated := st.filesCreated + 1,
        attempts := st.attempts ++
          [(env.normalizePath (folderPath ++ '/' ::
              (deriveFileName settings.useContentAsTitle (env.now i) i content ++ ".md".data)),
            if settings.appendToSplitContent.length > 0 then
              content ++ settings.appendToSplitContent else content)],
        created := st.created ++
          [(env.normalizePath (folderPath ++ '/' ::
              (deriveFileName settings.useContentAsTitle (env.now i) i content ++ ".md".data)),
            if settings.appendToSplitContent.length > 0 then
              content ++ settings.appendToSplitContent else content)] } := by
  simp [processFragment, attemptCreate, h1]

theorem processFragment_retry_success (env : Env) (settings : Settings)
    (folderPath : List Char) (st : LoopState) (i : Nat) (content msg : List Char)
    (h1 : env.createResult st.callIdx = CreateOutcome.failure msg)
    (hmark : hasSubstr alreadyExistsMark msg = true)
    (h2 : env.createResult (st.callIdx + 1) = CreateOutcome.success) :
    processFragment env settings folderPath st i content =
      { st with
        callIdx := st.callIdx + 2,
        filesCreated := st.filesCreated + 1,
        attempts := st.attempts ++
          [(env.normalizePath (folderPath ++ '/' ::
              (deriveFileName settings.useContentAsTitle (env.now i) i content ++ ".md".data)),
            if settings.appendToSplitContent.length > 0 then
              content ++ settings.appendToSplitContent else content),
           (folderPath ++ "/Split conflict ".data ++ env.uuid i ++ ".md".data,
            if settings.appendToSplitContent.length > 0 then
              content ++ settings.appendToSplitContent else content)],
        created := st.created ++
          [(folderPath ++ "/Split conflict ".data ++ env.uuid i ++ ".md".data,
            if settings.appendToSplitContent.length > 0 then
              content ++ settings.appendToSplitContent else content)] } := by
  simp [processFragment, attemptCreate, h1, hmark, h2]

theorem processFragment_retry_failure (env : Env) (settings : Settings)
    (folderPath : List Char) (st : LoopState) (i : Nat) (content msg msg2 : List Char)
    (h1 : env.createResult st.callIdx = CreateOutcome.failure msg)
    (hmark : hasSubstr alreadyExistsMark msg = true)
    (h2 : env.createResult (st.callIdx + 1) = CreateOutcome.failure msg2) :
    processFragment env settings folderPath st i content =
      { st with
        callIdx := st.callIdx + 2,
        attempts := st.attempts ++
          [(env.normalizePath (folderPath ++ '/' ::
              (deriveFileName settings.useContentAsTitle (env.now i) i content ++ ".md".data)),
            if settings.appendToSplitContent.length > 0 then
              content ++ settings.appendToSplitContent else content),
           (folderPath ++ "/Split conflict ".data ++ env.uuid i ++ ".md".data,
            if settings.appendToSplitContent.length > 0 then
              content ++ settings.appendToSplitContent else content)],
        notices := st.notices ++ [errNoticeStart ++ msg2] } := by
  simp [processFragment, attemptCreate, h1, hmark, h2]

theorem processFragment_other_failure (env : Env) (settings : Settings)
    (folderPath : List Char) (st : LoopState) (i : Nat) (content msg : List Char)
    (h1 : env.createResult st.callIdx = CreateOutcome.failure msg)
    (hmark : hasSubstr alreadyExistsMark msg = false) :
    processFragment env settings folderPath st i content =
      { st with
        callIdx := st.callIdx + 1,
        attempts := st.attempts ++
          [(env.normalizePath (folderPath ++ '/' ::
              (deriveFileName settings.useContentAsTitle (env.now i) i content ++ ".md".data)),
            if settings.appendToSplitContent.length > 0 then
              content ++ settings.appendToSplitContent else content)],
        notices := st.notices ++ [errNoticeStart ++ msg] } := by
  simp [processFragment, attemptCreate, h1, hmark]

theorem processFragment_filesCreated_le (env : Env) (settings : Settings)
    (folderPath : List Char) (st : LoopState) (i : Nat) (content : List Char) :
    (processFragment env settings folderPath st i content).filesCreated ≤
      st.filesCreated + 1 := by
  cases h1 : env.createResult st.callIdx with
  | success => rw [processFragment_success env settings folderPath st i content h1]
  | failure msg =>
    cases hmark : hasSubstr alreadyExistsMark msg with
    | false =>
      rw [processFragment_other_failure env settings folderPath st i content msg h1 hmark]
      simp
    | true =>
      cases h2 : env.createResult (st.callIdx + 1) with
      | success =>
        rw [processFragment_retry_success env settings folderPath st i content msg h1 hmark h2]
      | failure msg2 =>
        rw [processFragment_retry_failure env settings folderPath st i content msg msg2 h1
          hmark h2]
        simp

theorem processFragment_created_inv (env : Env) (settings : Settings)
    (folderPath : List Char) (st : LoopState) (i : Nat) (content : List Char)
    (hinv : st.filesCreated = st.created.length) :
    (processFragment env settings folderPath st i content).filesCreated =
      (processFragment env settings folderPath st i content).created.length := by
  cases h1 : env.createResult st.callIdx with
  | success =>
    rw [processFragment_success env settings folderPath st i content h1]
    simp [hinv]
  | failure msg =>
    cases hmark : hasSubstr alreadyExistsMark msg with
    | false =>
      rw [processFragment_other_failure env settings folderPath st i content msg h1 hmark]
      simpa using hinv
    | true =>
      cases h2 : env.createResult (st.callIdx + 1) with
      | success =>
        rw [processFragment_retry_success env settings folderPath st i content msg h1 hmark h2]
        simp [hinv]
      | failure msg2 =>
        rw [processFragment_retry_failure env settings folderPath st i content msg msg2 h1
          hmark h2]
        simpa using hinv

theorem processFragment_notices_shape (env : Env) (settings : Settings)
    (folderPath : List Char) (st : LoopState) (i : Nat) (content : List Char) :
    ∀ m ∈ (processFragment env settings folderPath st i content).notices,
      m ∈ st.notices ∨ errNoticeStart <+: m := by
  cases h1 : env.createResult st.callIdx with
  | success =>
    rw [processFragment_success env settings folderPath st i content h1]
    exact fun m hm => Or.inl hm
  | failure msg =>
    cases hmark : hasSubstr alreadyExistsMark msg with
    | false =>
      rw [processFragment_other_failure env settings folderPath st i content msg h1 hmark]
      intro m hm
      rcases List.mem_append.mp hm with hm | hm
      · exact Or.inl hm
      · simp only [List.mem_singleton] at hm
        exact Or.inr ⟨msg, hm.symm⟩
    | true =>
      cases h2 : env.createResult (st.callIdx + 1) with
      | success =>
        rw [processFragment_retry_success env settings folderPath st i content msg h1 hmark h2]
        exact fun m hm => Or.inl hm
      | failure msg2 =>
        rw [processFragment_retry_failure env settings folderPath st i content msg msg2 h1
          hmark h2]
        intro m hm
        rcases List.mem_append.mp hm with hm | hm
        · exact Or.inl hm
        · simp only [List.mem_singleton] at hm
          exact Or.inr ⟨msg2, hm.symm⟩

theorem processFragment_attempts_grow (env : Env) (settings : Settings)
    (folderPath : List Char) (st : LoopState) (i : Nat) (content : List Char) :
    st.attempts.length + 1 ≤
      (processFragment env settings folderPath st i content).attempts.length := by
  cases h1 : env.createResult st.callIdx with
  | success =>
    rw [processFragment_success env settings folderPath st i content h1]
    simp
  | failure msg =>
    cases hmark : hasSubstr alreadyExistsMark msg with
    | false =>
      rw [processFragment_other_failure env settings folderPath st i content msg h1 hmark]
      simp
    | true =>
      cases h2 : env.createResult (st.callIdx + 1) with
      | success =>
        rw [processFragment_retry_success env settings folderPath st i content msg h1 hmark h2]
        simp
      | failure msg2 =>
        rw [processFragment_retry_failure env settings folderPath st i content msg msg2 h1
          hmark h2]
        simp

/-! ### Fold-level invariants of the write loop -/

theorem foldLoop_filesCreated_le (env : Env) (settings : Settings)
    (folderPath : List Char) :
    ∀ (l : List (Nat × List Char)) (st : LoopState),
      ((l.foldl (fun st p => processFragment env settings folderPath st p.1 p.2)
          st).filesCreated) ≤ st.filesCreated + l.length := by
  intro l
  induction l with
  | nil => intro st; simp
  | cons p l ih =>
    intro st
    simp only [List.foldl_cons, List.length_cons]
    calc ((l.foldl (fun st p => processFragment env settings folderPath st p.1 p.2)
            (processFragment env settings folderPath st p.1 p.2)).filesCreated)
        ≤ (processFragment env settings folderPath st p.1 p.2).filesCreated + l.length :=
          ih _
      _ ≤ st.filesCreated + 1 + l.length := by
          have := processFragment_filesCreated_le env settings folderPath st p.1 p.2
          omega
      _ = st.filesCreated + (l.length + 1) := by omega

theorem foldLoop_created_inv (env : Env) (settings : Settings)
    (folderPath : List Char) :
    ∀ (l : List (Nat × List Char)) (st : LoopState),
      st.filesCreated = st.created.length →
      ((l.foldl (fun st p => processFragment env settings folderPath st p.1 p.2)
          st).filesCreated) =
        ((l.foldl (fun st p => processFragment env settings folderPath st p.1 p.2)
          st).created.length) := by
  intro l
  induction l with
  | nil => intro st h; simpa using h
  | cons p l ih =>
    intro st h
    simp only [List.foldl_cons]
    exact ih _ (processFragment_created_inv env settings folderPath st p.1 p.2 h)

theorem foldLoop_notices_shape (env : Env) (settings : Settings)
    (folderPath : List Char) :
    ∀ (l : List (Nat × List Char)) (st : LoopState),
      ∀ m ∈ ((l.foldl (fun st p => processFragment env settings folderPath st p.1 p.2)
          st).notices),
        m ∈ st.notices ∨ errNoticeStart <+: m := by
  intro l
  induction l with
  | nil => intro st m hm; exact Or.inl hm
  | cons p l ih =>
    intro st m hm
    simp only [List.foldl_cons] at hm
    rcases ih _ m hm with hm2 | hm2
    · exact processFragment_notices_shape env settings folderPath st p.1 p.2 m hm2
    · exact Or.inr hm2

theorem foldLoop_attempts_grow (env : Env) (settings : Settings)
    (folderPath : List Char) :
    ∀ (l : List (Nat × List Char)) (st : LoopState),
      st.attempts.length + l.length ≤
        ((l.foldl (fun st p => processFragment env settings folderPath st p.1 p.2)
          st).attempts.length) := by
  intro l
  induction l with
  | nil => intro st; simp
  | cons p l ih =>
    intro st
    simp only [List.foldl_cons, List.length_cons]
    have h1 := processFragment_attempts_grow env settings folderPath st p.1 p.2
    have h2 := ih (processFragment env settings folderPath st p.1 p.2)
    omega

theorem runLoop_filesCreated_le (env : Env) (settings : Settings)
    (folderPath : List Char) (frags : List (List Char)) :
    (runLoop env settings folderPath frags).filesCreated ≤ frags.length := by
  have h := foldLoop_filesCreated_le env settings folderPath frags.enum ⟨0, 0, [], [], []⟩
  simpa [runLoop, List.enum_length] using h

theorem runLoop_created_inv (env : Env) (settings : Settings)
    (folderPath : List Char) (frags : List (List Char)) :
    (runLoop env settings folderPath frags).filesCreated =
      (runLoop env settings folderPath frags).created.length := by
  exact foldLoop_created_inv env settings folderPath frags.enum ⟨0, 0, [], [], []⟩ rfl

theorem runLoop_notices_shape (env : Env) (settings : Settings)
    (folderPath : List Char) (frags : List (List Char)) :
    ∀ m ∈ (runLoop env settings folderPath frags).notices, errNoticeStart <+: m := by
  intro m hm
  rcases foldLoop_notices_shape env settings folderPath frags.enum ⟨0, 0, [], [], []⟩ m hm
    with h | h
  · simp at h
  · exact h

theorem runLoop_attempts_grow (env : Env) (settings : Settings)
    (folderPath : List Char) (frags : List (List Char)) :
    frags.length ≤ (runLoop env settings folderPath frags).attempts.length := by
  have h := foldLoop_attempts_grow env settings folderPath frags.enum ⟨0, 0, [], [], []⟩
  simpa [runLoop, List.enum_length] using h

/-! ### Branch lemmas for the whole operation -/

theorem snd_empty_delim (settings : Settings) (env : Env)
    (h1 : escapeDelimiter settings.delimiter = []) :
    splitNoteByDelimiter settings env =
      ⟨[noDelimiterMsg], [], [], false, false, false, 0, 0⟩ := by
  simp [splitNoteByDelimiter, h1]

theorem snd_empty_content (settings : Settings) (env : Env)
    (h1 : escapeDelimiter settings.delimiter ≠ [])
    (h2 : removeFrontmatterBlock env.fileContent = []) :
    splitNoteByDelimiter settings env =
      ⟨[noContentMsg], [], [], false, true, false, 0, 0⟩ := by
  simp [splitNoteByDelimiter, h1, h2]

theorem snd_zero_frags (settings : Settings) (env : Env)
    (h1 : escapeDelimiter settings.delimiter ≠ [])
    (h2 : removeFrontmatterBlock env.fileContent ≠ [])
    (h3 : (computeSplitContent (escapeDelimiter settings.delimiter)
        (removeFrontmatterBlock env.fileContent)).length = 0) :
    splitNoteByDelimiter settings env =
      ⟨[noContentMsg], [], [], false, true, false, 0, 0⟩ := by
  simp [splitNoteByDelimiter, h1, h2, h3]

theorem snd_one_frag (settings : Settings) (env : Env)
    (h1 : escapeDelimiter settings.delimiter ≠ [])
    (h2 : removeFrontmatterBlock env.fileContent ≠ [])
    (h3 : (computeSplitContent (escapeDelimiter settings.delimiter)
        (removeFrontmatterBlock env.fileContent)).length = 1) :
    splitNoteByDelimiter settings env =
      ⟨[onlyOneMsg], [], [], false, true, false, 1, 0⟩ := by
  simp [splitNoteByDelimiter, h1, h2, h3]

theorem snd_loop (settings : Settings) (env : Env)
    (h1 : escapeDelimiter settings.delimiter ≠ [])
    (h2 : removeFrontmatterBlock env.fileContent ≠ [])
    (h3 : (computeSplitContent (escapeDelimiter settings.delimiter)
        (removeFrontmatterBlock env.fileContent)).length ≠ 0)
    (h4 : (computeSplitContent (escapeDelimiter settings.delimiter)
        (removeFrontmatterBlock env.fileContent)).length ≠ 1) :
    splitNoteByDelimiter settings env =
      ⟨(runLoop env settings
          (if settings.saveFolderPath ≠ [] then settings.saveFolderPath
            else env.parentPath.getD [])
          (computeSplitContent (escapeDelimiter settings.delimiter)
            (removeFrontmatterBlock env.fileContent))).notices ++
          [summaryMsg (runLoop env settings
            (if settings.saveFolderPath ≠ [] then settings.saveFolderPath
              else env.parentPath.getD [])
            (computeSplitContent (escapeDelimiter settings.delimiter)
              (removeFrontmatterBlock env.fileContent))).filesCreated],
        (runLoop env settings
          (if settings.saveFolderPath ≠ [] then settings.saveFolderPath
            else env.parentPath.getD [])
          (computeSplitContent (escapeDelimiter settings.delimiter)
            (removeFrontmatterBlock env.fileContent))).attempts,
        (runLoop env settings
          (if settings.saveFolderPath ≠ [] then settings.saveFolderPath
            else env.parentPath.getD [])
          (computeSplitContent (escapeDelimiter settings.delimiter)
            (removeFrontmatterBlock env.fileContent))).created,
        ((runLoop env settings
          (if settings.saveFolderPath ≠ [] then settings.saveFolderPath
            else env.parentPath.getD [])
          (computeSplitContent (escapeDelimiter settings.delimiter)
            (removeFrontmatterBlock env.fileContent))).filesCreated ==
          (computeSplitContent (escapeDelimiter settings.delimiter)
            (removeFrontmatterBlock env.fileContent)).length) &&
          settings.deleteOriginalNote,
        true, true,
        (computeSplitContent (escapeDelimiter settings.delimiter)
          (removeFrontmatterBlock env.fileContent)).length,
        (runLoop env settings
          (if settings.saveFolderPath ≠ [] then settings.saveFolderPath
            else env.parentPath.getD [])
          (computeSplitContent (escapeDelimiter settings.delimiter)
            (removeFrontmatterBlock env.fileContent))).filesCreated⟩ := by
  simp [splitNoteByDelimiter, h1, h2, h3, h4]

/-! ### Claim theorems -/

/-- C2: for every document text `T` and every non-empty delimiter `d`, the
partition step splits `T` on each literal occurrence of `d`, trims each
segment and discards the ones that became empty while preserving order
(the result is a sublist of the trimmed segment list), and consequently
no returned fragment is empty or whitespace-only (each fragment contains
a non-whitespace character). -/
theorem C2_partition_fragments (d T : List Char) (hd : d ≠ []) :
    List.Sublist (computeSplitContent d T) ((jsSplit d T).map jsTrim) ∧
    ∀ f ∈ computeSplitContent d T,
      f ≠ [] ∧ ∃ c ∈ f, isJsWhitespace c = false := by
  refine ⟨List.filter_sublist _, ?_⟩
  intro f hf
  rcases mem_computeSplitContent hf with ⟨hne, p, hp, hfp⟩
  refine ⟨hne, ?_⟩
  rw [hfp]
  exact jsTrim_has_non_ws p (by rw [← hfp]; exact hne)

theorem C2_witness :
    ("x".data ≠ ([] : List Char)) ∧
    ∀ f ∈ computeSplitContent ("x".data) ("a x b".data),
      f ≠ [] ∧ ∃ c ∈ f, isJsWhitespace c = false :=
  ⟨by decide, (C2_partition_fragments ("x".data) ("a x b".data) (by decide)).2⟩

/-- C3: delimiter normalization (`delimiter.replace` of line 61) replaces
every occurrence of the two-character sequence backslash-`n` by a single
newline, leaves all other characters untouched, and acts as one global
non-recursive left-to-right pass — it coincides with the explicit
single-pass recursion `replaceEscSpec`. -/
theorem C3_escape_single_pass (d : List Char) :
    escapeDelimiter d = replaceEscSpec d := by
  unfold escapeDelimiter jsSplit splitOnL
  rw [if_neg (by decide)]
  exact escapeDelimiter_fuel d.length d le_rfl

/-- C4 (counterexample): in title mode a fragment whose first line
sanitizes to the empty string yields the empty derived name, not the
synthesized `split-note-` fallback the claim describes. -/
theorem C4_counterexample :
    deriveFileName true 5 0 ("***".data) = [] ∧
    deriveFileName true 5 0 ("***".data) ≠ "split-note-".data ++ natDigits (5 + 0) := by
  decide

/-- C4 (amended): in title mode, when sanitizing and truncating the
first line of the fragment produces an empty string, the derived file name is
that empty string — `splitNoteByDelimiter` has no fallback to the
synthesized `split-note-` pattern in title mode. -/
theorem C4_empty_title_no_fallback (now i : Nat) (c : List Char)
    (h : escapeInvalidFileNameChars ((jsSplit ['\n'] c).headI) = []) :
    deriveFileName true now i c = [] := by
  unfold deriveFileName
  simp [h, trimForFileName]

theorem C4_witness :
    escapeInvalidFileNameChars ((jsSplit ['\n'] "***".data).headI) = [] ∧
    deriveFileName true 7 3 ("***".data) = [] :=
  ⟨by decide, C4_empty_title_no_fallback 7 3 ("***".data) (by decide)⟩

/-- C7 (counterexample): `Date.now()` is re-read inside the loop at line
116, once per fragment, so when the host clock steps backwards between
two iterations (first read 1001, second read 1000) the run attempts the
very same `split-note-1001` path for two distinct fragment indices —
the synthesized names of one operation are not unconditionally
pairwise distinct. -/
theorem C7_counterexample :
    ((splitNoteByDelimiter ⟨"f".data, false, ",".data, [], false⟩
      ⟨"a,b".data, none, fun k => 1001 - k, fun _ => CreateOutcome.success,
        fun _ => [], id⟩).attempts.map Prod.fst) =
      ["f/split-note-1001.md".data, "f/split-note-1001.md".data] := by
  decide

/-- C7 (amended): in non-title mode the synthesized names
`split-note-{read + i}` of one operation are pairwise distinct provided
the per-fragment `Date.now()` reads never decrease over the loop (the
clock is re-read at every fragment rather than captured once per
operation, so distinctness needs this monotonicity of the host clock);
under that hypothesis distinct fragment indices never produce the same
derived file name. -/
theorem C7_synth_names_distinct (now : Nat → Nat) (i j : Nat) (ci cj : List Char)
    (hmono : ∀ a b : Nat, a ≤ b → now a ≤ now b) (hij : i ≠ j) :
    deriveFileName false (now i) i ci ≠ deriveFileName false (now j) j cj := by
  unfold deriveFileName
  simp only [Bool.false_eq_true, if_false]
  intro h
  have h2 : natDigits (now i + i) = natDigits (now j + j) := by
    have := List.append_inj_right h rfl
    exact this
  have heq := natDigits_inj h2
  rcases Nat.lt_or_ge i j with hlt | hge
  · have := hmono i j (Nat.le_of_lt hlt)
    omega
  · have hlt : j < i := by omega
    have := hmono j i (Nat.le_of_lt hlt)
    omega

theorem C7_witness :
    (0 : Nat) ≠ 1 ∧
    deriveFileName false 100 0 ("a".data) ≠ deriveFileName false 101 1 ("b".data) :=
  ⟨by decide, C7_synth_names_distinct (fun k => 100 + k) 0 1 ("a".data) ("b".data)
    (fun a b h => by show 100 + a ≤ 100 + b; omega) (by decide)⟩

/-- C8: when the delimiter normalizes to the empty string the operation
stops as a configuration error: only the no-delimiter notice is shown,
no creation is attempted, nothing is created, the source is not deleted,
the document content is never read and the folder is never created. -/
theorem C8_empty_delimiter (settings : Settings) (env : Env)
    (h : escapeDelimiter settings.delimiter = []) :
    (splitNoteByDelimiter settings env).notices = [noDelimiterMsg] ∧
    (splitNoteByDelimiter settings env).attempts = [] ∧
    (splitNoteByDelimiter settings env).created = [] ∧
    (splitNoteByDelimiter settings env).sourceDeleted = false ∧
    (splitNoteByDelimiter settings env).contentRead = false ∧
    (splitNoteByDelimiter settings env).folderCreateAttempted = false := by
  rw [snd_empty_delim settings env h]
  exact ⟨rfl, rfl, rfl, rfl, rfl, rfl⟩

theorem C8_witness :
    escapeDelimiter ([] : List Char) = [] ∧
    (splitNoteByDelimiter ⟨"f".data, false, [], [], true⟩
      ⟨"abc".data, none, fun _ => 0, fun _ => CreateOutcome.success, fun _ => [],
        id⟩).notices = [noDelimiterMsg] :=
  ⟨rfl, (C8_empty_delimiter ⟨"f".data, false, [], [], true⟩
    ⟨"abc".data, none, fun _ => 0, fun _ => CreateOutcome.success, fun _ => [], id⟩ rfl).1⟩

/-- C9: for every document text and non-empty delimiter, no fragment
returned by the partition step contains the delimiter as a contiguous
substring. -/
theorem C9_no_delimiter_in_fragment (d T : List Char) (hd : d ≠ []) :
    ∀ f ∈ computeSplitContent d T, ¬ d <:+: f := by
  intro f hf hinf
  rcases mem_computeSplitContent hf with ⟨hne, p, hp, hfp⟩
  have hpf : ¬ d <:+: p := by
    unfold jsSplit at hp
    rw [if_neg hd] at hp
    exact splitOnFuel_piece_free d hd T.length T le_rfl p hp
  apply hpf
  rw [hfp] at hinf
  exact hinf.trans (jsTrim_ifx_self p)

theorem C9_witness :
    ("--".data ≠ ([] : List Char)) ∧
    ∀ f ∈ computeSplitContent ("--".data) ("ab--cd".data), ¬ "--".data <:+: f :=
  ⟨by decide, C9_no_delimiter_in_fragment ("--".data) ("ab--cd".data) (by decide)⟩

/-- C1 (counterexample): a run on an empty document with
`deleteOriginalNote = true` has `filesCreated = fragmentsTotal` (both 0)
and the flag set, yet the source is not deleted — the biconditional of
the claim fails for runs that never reach the write loop. -/
theorem C1_counterexample :
    (splitNoteByDelimiter ⟨"f".data, false, "x".data, [], true⟩
      ⟨[], none, fun _ => 0, fun _ => CreateOutcome.success, fun _ => [], id⟩).filesCreated =
      (splitNoteByDelimiter ⟨"f".data, false, "x".data, [], true⟩
        ⟨[], none, fun _ => 0, fun _ => CreateOutcome.success, fun _ => [], id⟩).fragmentsTotal ∧
    (⟨"f".data, false, "x".data, [], true⟩ : Settings).deleteOriginalNote = true ∧
    (splitNoteByDelimiter ⟨"f".data, false, "x".data, [], true⟩
      ⟨[], none, fun _ => 0, fun _ => CreateOutcome.success, fun _ => [],
        id⟩).sourceDeleted = false := by
  decide

/-- C1 (amended): the source document is deleted exactly when the run
produced at least two fragments (so the write loop ran), every fragment
write succeeded (`filesCreated = fragmentsTotal`) and `deleteOriginalNote`
is set; on any partial success the source is kept, and in every run
`filesCreated ≤ fragmentsTotal`. -/
theorem C1_deletion_iff (settings : Settings) (env : Env) :
    ((splitNoteByDelimiter settings env).sourceDeleted = true ↔
      2 ≤ (splitNoteByDelimiter settings env).fragmentsTotal ∧
      (splitNoteByDelimiter settings env).filesCreated =
        (splitNoteByDelimiter settings env).fragmentsTotal ∧
      settings.deleteOriginalNote = true) ∧
    (splitNoteByDelimiter settings env).filesCreated ≤
      (splitNoteByDelimiter settings env).fragmentsTotal := by
  by_cases h1 : escapeDelimiter settings.delimiter = []
  · rw [snd_empty_delim settings env h1]
    simp
  · by_cases h2 : removeFrontmatterBlock env.fileContent = []
    · rw [snd_empty_content settings env h1 h2]
      simp
    · by_cases h3 : (computeSplitContent (escapeDelimiter settings.delimiter)
          (removeFrontmatterBlock env.fileContent)).length = 0
      · rw [snd_zero_frags settings env h1 h2 h3]
        simp
      · by_cases h4 : (computeSplitContent (escapeDelimiter settings.delimiter)
            (removeFrontmatterBlock env.fileContent)).length = 1
        · rw [snd_one_frag settings env h1 h2 h4]
          simp
        · rw [snd_loop settings env h1 h2 h3 h4]
          constructor
          · show ((_ == _) && settings.deleteOriginalNote) = true ↔ _
            simp only [Bool.and_eq_true, beq_iff_eq]
            constructor
            · rintro ⟨hfc, hflag⟩
              exact ⟨by omega, hfc, hflag⟩
            · rintro ⟨-, hfc, hflag⟩
              exact ⟨hfc, hflag⟩
          · exact runLoop_filesCreated_le env settings _ _

/-- C5: when partitioning yields zero fragments the run stops with the
no-content notice, and when it yields exactly one fragment it stops with
the only-one-section notice; in both cases nothing is attempted, created
or deleted, and the two notices are distinct messages. -/
theorem C5_no_op_cases (settings : Settings) (env : Env)
    (hd : escapeDelimiter settings.delimiter ≠ []) :
    ((computeSplitContent (escapeDelimiter settings.delimiter)
        (removeFrontmatterBlock env.fileContent)).length = 0 →
      splitNoteByDelimiter settings env =
        ⟨[noContentMsg], [], [], false, true, false, 0, 0⟩) ∧
    ((computeSplitContent (escapeDelimiter settings.delimiter)
        (removeFrontmatterBlock env.fileContent)).length = 1 →
      splitNoteByDelimiter settings env =
        ⟨[onlyOneMsg], [], [], false, true, false, 1, 0⟩) ∧
    noContentMsg ≠ onlyOneMsg := by
  refine ⟨?_, ?_, by decide⟩
  · intro h0
    by_cases h2 : removeFrontmatterBlock env.fileContent = []
    · exact snd_empty_content settings env hd h2
    · exact snd_zero_frags settings env hd h2 h0
  · intro hone
    have h2 : removeFrontmatterBlock env.fileContent ≠ [] := by
      intro h2
      rw [h2] at hone
      have hemp : computeSplitContent (escapeDelimiter settings.delimiter)
          ([] : List Char) = [] := by
        unfold computeSplitContent jsSplit splitOnL
        rw [if_neg hd]
        simp [splitOnFuel, jsTrim]
      rw [hemp] at hone
      simp at hone
    exact snd_one_frag settings env hd h2 hone

theorem C5_witness :
    (escapeDelimiter (",".data) ≠ []) ∧
    splitNoteByDelimiter ⟨"f".data, false, ",".data, [], false⟩
        ⟨"   ".data, none, fun _ => 0, fun _ => CreateOutcome.success, fun _ => [], id⟩ =
      ⟨[noContentMsg], [], [], false, true, false, 0, 0⟩ :=
  ⟨by decide, (C5_no_op_cases ⟨"f".data, false, ",".data, [], false⟩
    ⟨"   ".data, none, fun _ => 0, fun _ => CreateOutcome.success, fun _ => [], id⟩
    (by decide)).1 (by decide)⟩

/-- C6: when the first create call of a fragment fails and the error message
contains "already exists", the loop makes exactly one more create call,
at the same destination folder under a `Split conflict` name with the
same body, counting the fragment only if that retry succeeds; on any
other failure no retry happens and the count is unchanged; and no
per-fragment failure aborts the loop — every fragment of the run gets at
least one create attempt. -/
theorem C6_collision_retry (env : Env) (settings : Settings)
    (folderPath : List Char) (st : LoopState) (i : Nat) (content msg : List Char)
    (h1 : env.createResult st.callIdx = CreateOutcome.failure msg) :
    (hasSubstr alreadyExistsMark msg = true →
      (processFragment env settings folderPath st i content).callIdx =
        st.callIdx + 2 ∧
      (processFragment env settings folderPath st i content).attempts =
        st.attempts ++
          [(env.normalizePath (folderPath ++ '/' ::
              (deriveFileName settings.useContentAsTitle (env.now i) i content ++
                ".md".data)),
            if settings.appendToSplitContent.length > 0 then
              content ++ settings.appendToSplitContent else content),
           (folderPath ++ "/Split conflict ".data ++ env.uuid i ++ ".md".data,
            if settings.appendToSplitContent.length > 0 then
              content ++ settings.appendToSplitContent else content)] ∧
      (env.createResult (st.callIdx + 1) = CreateOutcome.success →
        (processFragment env settings folderPath st i content).filesCreated =
          st.filesCreated + 1) ∧
      ∀ msg2, env.createResult (st.callIdx + 1) = CreateOutcome.failure msg2 →
        (processFragment env settings folderPath st i content).filesCreated =
          st.filesCreated) ∧
    (hasSubstr alreadyExistsMark msg = false →
      (processFragment env settings folderPath st i content).callIdx =
        st.callIdx + 1 ∧
      (processFragment env settings folderPath st i content).attempts =
        st.attempts ++
          [(env.normalizePath (folderPath ++ '/' ::
              (deriveFileName settings.useContentAsTitle (env.now i) i content ++
                ".md".data)),
            if settings.appendToSplitContent.length > 0 then
              content ++ settings.appendToSplitContent else content)] ∧
      (processFragment env settings folderPath st i content).filesCreated =
        st.filesCreated) ∧
    ∀ frags : List (List Char),
      frags.length ≤ (runLoop env settings folderPath frags).attempts.length := by
  refine ⟨?_, ?_, runLoop_attempts_grow env settings folderPath⟩
  · intro hmark
    cases h2 : env.createResult (st.callIdx + 1) with
    | success =>
      rw [processFragment_retry_success env settings folderPath st i content msg
        h1 hmark h2]
      refine ⟨rfl, rfl, fun _ => rfl, ?_⟩
      intro msg2 hmsg2
      exact CreateOutcome.noConfusion hmsg2
    | failure msg2 =>
      rw [processFragment_retry_failure env settings folderPath st i content msg
        msg2 h1 hmark h2]
      refine ⟨rfl, rfl, ?_, fun _ _ => rfl⟩
      intro hsucc
      exact CreateOutcome.noConfusion hsucc
  · intro hmark
    rw [processFragment_other_failure env settings folderPath st i content msg
      h1 hmark]
    exact ⟨rfl, rfl, rfl⟩

theorem C6_witness :
    (⟨"a".data, none, fun _ => 7,
      fun k => if k = 0 then CreateOutcome.failure ("file already exists".data)
        else CreateOutcome.success,
      fun _ => "U".data, id⟩ : Env).createResult 0 =
      CreateOutcome.failure ("file already exists".data) ∧
    hasSubstr alreadyExistsMark ("file already exists".data) = true ∧
    (processFragment
      ⟨"a".data, none, fun _ => 7,
        fun k => if k = 0 then CreateOutcome.failure ("file already exists".data)
          else CreateOutcome.success,
        fun _ => "U".data, id⟩
      ⟨"f".data, false, ",".data, [], false⟩ "f".data ⟨0, 0, [], [], []⟩ 0
      "a".data).callIdx = 2 :=
  ⟨by decide, by decide,
    ((C6_collision_retry
      ⟨"a".data, none, fun _ => 7,
        fun k => if k = 0 then CreateOutcome.failure ("file already exists".data)
          else CreateOutcome.success,
        fun _ => "U".data, id⟩
      ⟨"f".data, false, ",".data, [], false⟩ "f".data ⟨0, 0, [], [], []⟩ 0
      ("a".data) ("file already exists".data) (by decide)).1 (by decide)).1⟩

theorem err_not_summary (m : List Char) (h : errNoticeStart <+: m) :
    ("Split into ".data.isPrefixOf m) = false := by
  rcases h with ⟨t, ht⟩
  subst ht
  rfl

theorem summary_starts_split_into (n : Nat) :
    ("Split into ".data.isPrefixOf (summaryMsg n)) = true := by
  simp only [ List.isPrefixOf_iff_prefix, summaryMsg, List.append_assoc]
  exact List.prefix_append _ _

theorem countP_summary_one (n : Nat) :
    List.countP (fun m => "Split into ".data.isPrefixOf m) [summaryMsg n] = 1 := by
  rw [List.countP_cons_of_pos]
  · rfl
  · exact summary_starts_split_into n

theorem summaryMsg_singular {n : Nat} (h : n ≤ 1) :
    summaryMsg n = "Split into ".data ++ natDigits n ++ " note.".data := by
  have hno : (" note".data ++ ".".data : List Char) = " note.".data := by decide
  rw [summaryMsg, if_neg (by omega)]
  simp [List.append_assoc, hno]

/-- C10: every run that reaches the write loop emits exactly one summary
notification, as its last notice; its reported count is the number of
successfully created files; and for counts of at most one — including
zero created files — the word "note" is rendered in the singular. -/
theorem C10_summary_notice (settings : Settings) (env : Env)
    (hd : escapeDelimiter settings.delimiter ≠ [])
    (hlen : 2 ≤ (computeSplitContent (escapeDelimiter settings.delimiter)
        (removeFrontmatterBlock env.fileContent)).length) :
    (splitNoteByDelimiter settings env).notices.countP
        (fun m => "Split into ".data.isPrefixOf m) = 1 ∧
    (splitNoteByDelimiter settings env).notices.getLast? =
      some (summaryMsg (splitNoteByDelimiter settings env).filesCreated) ∧
    (splitNoteByDelimiter settings env).filesCreated =
      (splitNoteByDelimiter settings env).created.length ∧
    ((splitNoteByDelimiter settings env).filesCreated ≤ 1 →
      (splitNoteByDelimiter settings env).notices.getLast? =
        some ("Split into ".data ++
          natDigits (splitNoteByDelimiter settings env).filesCreated ++
          " note.".data)) := by
  have h2 : removeFrontmatterBlock env.fileContent ≠ [] := by
    intro h2
    rw [h2] at hlen
    have hemp : computeSplitContent (escapeDelimiter settings.delimiter)
        ([] : List Char) = [] := by
      unfold computeSplitContent jsSplit splitOnL
      rw [if_neg hd]
      simp [splitOnFuel, jsTrim]
    rw [hemp] at hlen
    simp at hlen
  have h3 : (computeSplitContent (escapeDelimiter settings.delimiter)
      (removeFrontmatterBlock env.fileContent)).length ≠ 0 := by omega
  have h4 : (computeSplitContent (escapeDelimiter settings.delimiter)
      (removeFrontmatterBlock env.fileContent)).length ≠ 1 := by omega
  rw [snd_loop settings env hd h2 h3 h4]
  refine ⟨?_, ?_, ?_, ?_⟩
  · show List.countP _ (_ ++ [summaryMsg _]) = 1
    rw [List.countP_append]
    have hz : List.countP (fun m => "Split into ".data.isPrefixOf m)
        (runLoop env settings
          (if settings.saveFolderPath ≠ [] then settings.saveFolderPath
            else env.parentPath.getD [])
          (computeSplitContent (escapeDelimiter settings.delimiter)
            (removeFrontmatterBlock env.fileContent))).notices = 0 := by
      rw [List.countP_eq_zero]
      intro m hm
      have hshape := runLoop_notices_shape env settings _ _ m hm
      simp [err_not_summary m hshape]
    rw [hz, Nat.zero_add, countP_summary_one]
  · show (_ ++ [summaryMsg _]).getLast? = some (summaryMsg _)
    rw [List.getLast?_concat]
  · exact runLoop_created_inv env settings _ _
  · intro hfc
    show (_ ++ [summaryMsg _]).getLast? = some _
    rw [List.getLast?_concat, summaryMsg_singular hfc]

theorem C10_witness :
    (escapeDelimiter (",".data) ≠ []) ∧
    2 ≤ (computeSplitContent (escapeDelimiter (",".data))
      (removeFrontmatterBlock ("a,b".data))).length ∧
    (splitNoteByDelimiter ⟨"f".data, false, ",".data, [], false⟩
      ⟨"a,b".data, none, fun _ => 3, fun _ => CreateOutcome.failure ("disk full".data),
        fun _ => [], id⟩).notices.getLast? =
      some ("Split into ".data ++
        natDigits (splitNoteByDelimiter ⟨"f".data, false, ",".data, [], false⟩
          ⟨"a,b".data, none, fun _ => 3, fun _ => CreateOutcome.failure ("disk full".data),
            fun _ => [], id⟩).filesCreated ++ " note.".data) :=
  ⟨by decide, by decide,
    (C10_summary_notice ⟨"f".data, false, ",".data, [], false⟩
      ⟨"a,b".data, none, fun _ => 3, fun _ => CreateOutcome.failure ("disk full".data),
        fun _ => [], id⟩ (by decide) (by decide)).2.2.2 (by decide)⟩
